import Mathlib

/-! # go-shopify-graphql: resource services

A shallow embedding of the resource services of the client library
(`collection.go`, `order.go`, `location.go`) and the properties of their
pagination, bulk listing and error paths.

Conventions of the embedding:

* a Go pointer or slice that may be `nil` is an `Option`;
* a Go `error` is `Option Err`, `none` being the `nil` error;
* a Go call that may stop with a run-time panic yields a `Run`;
* the `map[string]interface{}` of GraphQL variables is a `Vars`;
* the RPC collaborator (`client.gql`, `client.BulkOperation`,
  `client.Collection`) is a function parameter of the operation using it.
-/

set_option autoImplicit false

namespace Shopify

/-! ## Errors -/

/-- Go `error` values: a plain error, or one made by `fmt.Errorf` with a
`%w` verb, which keeps the error it wraps. -/
inductive Err where
  | plain (text : String)
  | wrapped (text : String) (inner : Err)
  deriving DecidableEq, Repr

/-- The method `Error()` of an error. -/
def Err.Error : Err → String
  | .plain t => t
  | .wrapped t _ => t

/-- The method `Unwrap()` of an error, `none` when it wraps nothing. -/
def Err.Unwrap : Err → Option Err
  | .plain _ => none
  | .wrapped _ inner => some inner

/-- The call `fmt.Errorf(lead + "%w", err)`. -/
def Errorf_w (lead : String) (err : Err) : Err :=
  .wrapped (lead ++ err.Error) err

/-- Outcome of running a Go function: it returns its results or panics. -/
inductive Run (α : Type) where
  | returned (results : α)
  | panicked (text : String)
  deriving DecidableEq, Repr

/-- The text of the run-time panic of a nil pointer dereference. -/
def nilDeref : String :=
  "runtime error: invalid memory address or nil pointer dereference"

/-! ## GraphQL variables -/

/-- The values stored in a variable map (`interface{}`). -/
inductive Val where
  | str (s : String)
  | int (i : Int)
  | bool (b : Bool)
  deriving DecidableEq, Repr

/-- The variable map `map[string]interface{}`, as an association list with
at most one entry per key. -/
abbrev Vars := List (String × Val)

/-- The assignment `vars[k] = v`. -/
def Vars.set (vars : Vars) (k : String) (v : Val) : Vars :=
  (k, v) :: vars.filter (fun kv => kv.1 != k)

/-- The lookup `vars[k]`, `none` when the key is absent. -/
def Vars.get (vars : Vars) (k : String) : Option Val :=
  List.lookup k vars

/-- Whether the key is present in the map. -/
def Vars.has (vars : Vars) (k : String) : Bool :=
  (Vars.get vars k).isSome

/-! ## Model types -/

/-- A Go slice, by its elements. -/
abbrev Slice (α : Type) := List α

/-- The type `ListOptions` of the client package, with the fields the
services read. -/
structure ListOptions where
  Query : String := ""
  First : Int := 0
  Last : Int := 0
  After : String := ""
  Before : String := ""
  Reverse : Bool := false
  deriving DecidableEq, Repr

/-- The type `model.Order`, abridged to identifying fields. -/
structure Order where
  ID : String
  Name : String
  deriving DecidableEq, Repr

/-- One element of `out.Orders.Edges` in `ListAfterCursor`. -/
structure OrderEdge where
  OrderQueryResult : Option Order
  Cursor : String
  deriving DecidableEq, Repr

/-- The destination `out` that `ListAfterCursor` has the collaborator fill. -/
structure OrdersOut where
  Edges : List OrderEdge
  HasNextPage : Bool
  deriving DecidableEq, Repr

/-! ## Text functions of the Go library -/

/-- The verbs of `fmt.Sprintf` on the characters of the format: each `%s`
is replaced by the next argument, `%!s(MISSING)` once the arguments are
used up (the formats of this package hold no other verb). -/
def sprintfChars : List Char → List String → List Char
  | [], _ => []
  | '%' :: 's' :: rest, a :: args => a.toList ++ sprintfChars rest args
  | '%' :: 's' :: rest, [] => "%!s(MISSING)".toList ++ sprintfChars rest []
  | c :: rest, args => c :: sprintfChars rest args

/-- The call `fmt.Sprintf(format, args...)` for string arguments. -/
def Sprintf (format : String) (args : List String) : String :=
  String.mk (sprintfChars format.toList args)

/-- The scan of `strings.ReplaceAll` for a non-empty `old`: left to right,
each occurrence of `old` is replaced by `new` and the scan resumes after
it; `skip` counts the characters of a matched occurrence still to pass. -/
def replaceAllChars (old new : List Char) : Nat → List Char → List Char
  | _, [] => []
  | skip + 1, _ :: rest => replaceAllChars old new skip rest
  | 0, c :: rest =>
    if old.isPrefixOf (c :: rest) then new ++ replaceAllChars old new (old.length - 1) rest
    else c :: replaceAllChars old new 0 rest

/-- The call `strings.ReplaceAll(s, old, new)`; an empty `old` matches
before every character and at the end. -/
def ReplaceAll (s old new : String) : String :=
  if old = "" then String.mk (new.toList ++ s.toList.flatMap (fun c => c :: new.toList))
  else String.mk (replaceAllChars old.toList new.toList 0 s.toList)

/-- Whether the characters `pat` occur consecutively in the list. -/
def containsChars (pat : List Char) : List Char → Bool
  | [] => pat.isEmpty
  | c :: rest => pat.isPrefixOf (c :: rest) || containsChars pat rest

/-- Whether `substr` occurs in `s` (`strings.Contains`). -/
def Contains (s substr : String) : Bool :=
  containsChars substr.toList s.toList

/-! ## Query texts -/

/-- The constant `orderBaseQuery` of `order.go`. -/
def orderBaseQuery : String :=
  String.join [
    "\n",
    "\tid\n",
    "\tlegacyResourceId\n",
    "\tname\n",
    "\tcreatedAt\n",
    "\tcustomer\x7b\n",
    "\t\tid\n",
    "\t\tlegacyResourceId\n",
    "\t\tfirstName\n",
    "\t\tdisplayName\n",
    "\t\temail\n",
    "\t\x7d\n",
    "\tclientIp\n",
    "\tshippingAddress\x7b\n",
    "\t\taddress1\n",
    "\t\taddress2\n",
    "\t\tcity\n",
    "\t\tprovince\n",
    "\t\tcountry\n",
    "\t\tzip\n",
    "\t\x7d\n",
    "\tshippingLine\x7b\n",
    "\t\toriginalPriceSet\x7b\n",
    "\t\t\tpresentmentMoney\x7b\n",
    "\t\t\t\tamount\n",
    "\t\t\t\tcurrencyCode\n",
    "\t\t\t\x7d\n",
    "\t\t\tshopMoney\x7b\n",
    "\t\t\t\tamount\n",
    "\t\t\t\tcurrencyCode\n",
    "\t\t\t\x7d\n",
    "\t\t\x7d\n",
    "\t\ttitle\n",
    "\t\x7d\n",
    "\ttaxLines\x7b\n",
    "\t\tpriceSet\x7b\n",
    "\t\t\tpresentmentMoney\x7b\n",
    "\t\t\t\tamount\n",
    "\t\t\t\tcurrencyCode\n",
    "\t\t\t\x7d\n",
    "\t\t\tshopMoney\x7b\n",
    "\t\t\t\tamount\n",
    "\t\t\t\tcurrencyCode\n",
    "\t\t\t\x7d\n",
    "\t\t\x7d\n",
    "\t\trate\n",
    "\t\tratePercentage\n",
    "\t\ttitle\n",
    "\t\x7d\n",
    "\ttotalReceivedSet\x7b\n",
    "\t\tpresentmentMoney\x7b\n",
    "\t\t\tamount\n",
    "\t\t\tcurrencyCode\n",
    "\t\t\x7d\n",
    "\t\tshopMoney\x7b\n",
    "\t\t\tamount\n",
    "\t\t\tcurrencyCode\n",
    "\t\t\x7d\n",
    "\t\x7d\n",
    "\tnote\n",
    "\ttags\n",
    "\ttransactions \x7b\n",
    "\t\tprocessedAt\n",
    "\t\tstatus\n",
    "\t\tkind\n",
    "\t\ttest\n",
    "\t\tamountSet \x7b\n",
    "\t\t\tshopMoney \x7b\n",
    "\t\t\t\tamount\n",
    "\t\t\t\tcurrencyCode\n",
    "\t\t\t\x7d\n",
    "\t\t\x7d\n",
    "\t\x7d\t\n"]

/-- The constant `orderLightQuery` of `order.go`. -/
def orderLightQuery : String :=
  String.join [
    "\n",
    "\tid\n",
    "\tlegacyResourceId\n",
    "\tname\n",
    "\tcreatedAt\n",
    "\tcustomer\x7b\n",
    "\t\tid\n",
    "\t\tlegacyResourceId\n",
    "\t\tfirstName\n",
    "\t\tdisplayName\n",
    "\t\temail\n",
    "\t\x7d\n",
    "\tshippingAddress\x7b\n",
    "\t\taddress1\n",
    "\t\taddress2\n",
    "\t\tcity\n",
    "\t\tprovince\n",
    "\t\tcountry\n",
    "\t\tzip\n",
    "\t\x7d\n",
    "\tshippingLine\x7b\n",
    "\t\ttitle\n",
    "\t\x7d\n",
    "\ttotalReceivedSet\x7b\n",
    "\t\tshopMoney\x7b\n",
    "\t\t\tamount\n",
    "\t\t\x7d\n",
    "\t\x7d\n",
    "\tnote\n",
    "\ttags\n"]

/-- The constant `lineItemFragment` of `order.go`. -/
def lineItemFragment : String :=
  String.join [
    "\n",
    "fragment lineItem on LineItem \x7b\n",
    "\tid\n",
    "\tsku\n",
    "\tquantity\n",
    "\tfulfillableQuantity\n",
    "\tfulfillmentStatus\n",
    "\tproduct\x7b\n",
    "\t\tid\n",
    "\t\tlegacyResourceId\t\t\t\t\t\t\t\t\t\t\n",
    "\t\x7d\n",
    "\tvendor\n",
    "\ttitle\n",
    "\tvariantTitle\n",
    "\tvariant\x7b\n",
    "\t\tid\n",
    "\t\tlegacyResourceId\t\n",
    "\t\tselectedOptions\x7b\n",
    "\t\t\tname\n",
    "\t\t\tvalue\n",
    "\t\t\x7d\t\t\t\t\t\t\t\t\t\n",
    "\t\x7d\n",
    "\toriginalTotalSet\x7b\n",
    "\t\tpresentmentMoney\x7b\n",
    "\t\t\tamount\n",
    "\t\t\tcurrencyCode\n",
    "\t\t\x7d\n",
    "\t\tshopMoney\x7b\n",
    "\t\t\tamount\n",
    "\t\t\tcurrencyCode\n",
    "\t\t\x7d\n",
    "\t\x7d\n",
    "\toriginalUnitPriceSet\x7b\n",
    "\t\tpresentmentMoney\x7b\n",
    "\t\t\tamount\n",
    "\t\t\tcurrencyCode\n",
    "\t\t\x7d\n",
    "\t\tshopMoney\x7b\n",
    "\t\t\tamount\n",
    "\t\t\tcurrencyCode\n",
    "\t\t\x7d\n",
    "\t\x7d\n",
    "\tdiscountedUnitPriceSet\x7b\n",
    "\t\tpresentmentMoney\x7b\n",
    "\t\t\tamount\n",
    "\t\t\tcurrencyCode\n",
    "\t\t\x7d\n",
    "\t\tshopMoney\x7b\n",
    "\t\t\tamount\n",
    "\t\t\tcurrencyCode\n",
    "\t\t\x7d\n",
    "\t\x7d\n",
    "\tdiscountedTotalSet\x7b\n",
    "\t\tpresentmentMoney\x7b\n",
    "\t\t\tamount\n",
    "\t\t\tcurrencyCode\n",
    "\t\t\x7d\n",
    "\t\tshopMoney\x7b\n",
    "\t\t\tamount\n",
    "\t\t\tcurrencyCode\n",
    "\t\t\x7d\n",
    "\t\x7d\n",
    "\x7d\n"]

/-- The constant `lineItemFragmentLight` of `order.go`. -/
def lineItemFragmentLight : String :=
  String.join [
    "\n",
    "fragment lineItem on LineItem \x7b\n",
    "\tid\n",
    "\tsku\n",
    "\tquantity\n",
    "\tfulfillableQuantity\n",
    "\tfulfillmentStatus\n",
    "\tvendor\n",
    "\ttitle\n",
    "\tvariantTitle\n",
    "\x7d\n"]

/-- The format string of `OrderServiceOp.Get`. -/
def Order_Get_format : String :=
  String.join [
    "\n",
    "\t\tquery order($id: ID!) \x7b\n",
    "\t\t\tnode(id: $id)\x7b\n",
    "\t\t\t\t... on Order \x7b\n",
    "\t\t\t\t\t%s\n",
    "\t\t\t\t\tlineItems(first:50)\x7b\n",
    "\t\t\t\t\t\tedges\x7b\n",
    "\t\t\t\t\t\t\tnode\x7b\n",
    "\t\t\t\t\t\t\t\t...lineItem\n",
    "\t\t\t\t\t\t\t\x7d\n",
    "\t\t\t\t\t\t\x7d\n",
    "\t\t\t\t\t\x7d\n",
    "\t\t\t\t\tfulfillmentOrders(first:5)\x7b\n",
    "\t\t\t\t\t\tedges \x7b\n",
    "\t\t\t\t\t\t\tnode \x7b\n",
    "\t\t\t\t\t\t\t\tid\n",
    "\t\t\t\t\t\t\t\tstatus\n",
    "\t\t\t\t\t\t\t\tlineItems(first:50)\x7b\n",
    "\t\t\t\t\t\t\t\t\tedges \x7b\n",
    "\t\t\t\t\t\t\t\t\t\tnode \x7b\n",
    "\t\t\t\t\t\t\t\t\t\t\tid\n",
    "\t\t\t\t\t\t\t\t\t\t\tremainingQuantity\n",
    "\t\t\t\t\t\t\t\t\t\t\ttotalQuantity\n",
    "\t\t\t\t\t\t\t\t\t\t\tlineItem\x7b\n",
    "\t\t\t\t\t\t\t\t\t\t\t\tsku\n",
    "\t\t\t\t\t\t\t\t\t\t\t\x7d\t\t\t\t\t\t\t\t\n",
    "\t\t\t\t\t\t\t\t\t\t\x7d\n",
    "\t\t\t\t\t\t\t\t\t\x7d\n",
    "\t\t\t\t\t\t\t\t\x7d\n",
    "\t\t\t\t\t\t\t\x7d\n",
    "\t\t\t\t\t\t\x7d\n",
    "\t\t\t\t\t\x7d\t\t\t\t\t\n",
    "\t\t\t\t\x7d\n",
    "\t\t\t\x7d\n",
    "\t\t\x7d\n",
    "\n",
    "\t\t%s\n",
    "\t"]

/-- The format string of `OrderServiceOp.List`. -/
def Order_List_format : String :=
  String.join [
    "\n",
    "\t\t\x7b\n",
    "\t\t\torders(query: \"$query\")\x7b\n",
    "\t\t\t\tedges\x7b\n",
    "\t\t\t\t\tnode\x7b\n",
    "\t\t\t\t\t\t%s\n",
    "\t\t\t\t\t\tlineItems\x7b\n",
    "\t\t\t\t\t\t\tedges\x7b\n",
    "\t\t\t\t\t\t\t\tnode\x7b\n",
    "\t\t\t\t\t\t\t\t\t...lineItem\n",
    "\t\t\t\t\t\t\t\t\x7d\n",
    "\t\t\t\t\t\t\t\x7d\n",
    "\t\t\t\t\t\t\x7d\n",
    "\t\t\t\t\t\x7d\n",
    "\t\t\t\t\x7d\n",
    "\t\t\t\x7d\n",
    "\t\t\x7d\n",
    "\n",
    "\t\t%s\n",
    "\t"]

/-- The format string of `OrderServiceOp.ListAll`. -/
def Order_ListAll_format : String :=
  String.join [
    "\n",
    "\t\t\x7b\n",
    "\t\t\torders(query: \"$query\")\x7b\n",
    "\t\t\t\tedges\x7b\n",
    "\t\t\t\t\tnode\x7b\n",
    "\t\t\t\t\t\t%s\n",
    "\t\t\t\t\t\tlineItems\x7b\n",
    "\t\t\t\t\t\t\tedges\x7b\n",
    "\t\t\t\t\t\t\t\tnode\x7b\n",
    "\t\t\t\t\t\t\t\t\t...lineItem\n",
    "\t\t\t\t\t\t\t\t\x7d\n",
    "\t\t\t\t\t\t\t\x7d\n",
    "\t\t\t\t\t\t\x7d\n",
    "\t\t\t\t\t\x7d\n",
    "\t\t\t\t\x7d\n",
    "\t\t\t\x7d\n",
    "\t\t\x7d\n",
    "\n",
    "\t\t%s\n",
    "\t"]

/-- The format string of `OrderServiceOp.ListAfterCursor`. -/
def ListAfterCursor_format : String :=
  String.join [
    "\n",
    "\t\tquery orders($query: String, $first: Int, $last: Int, $before: String, $after: String, $reverse: Boolean) \x7b\n",
    "\t\t\torders(query: $query, first: $first, last: $last, before: $before, after: $after, reverse: $reverse)\x7b\n",
    "\t\t\t\tedges\x7b\n",
    "\t\t\t\t\tnode\x7b\n",
    "\t\t\t\t\t\t%s\n",
    "\n",
    "\t\t\t\t\t\tlineItems(first:25)\x7b\n",
    "\t\t\t\t\t\t\tedges\x7b\n",
    "\t\t\t\t\t\t\t\tnode\x7b\n",
    "\t\t\t\t\t\t\t\t\t...lineItem\n",
    "\t\t\t\t\t\t\t\t\x7d\n",
    "\t\t\t\t\t\t\t\x7d\n",
    "\t\t\t\t\t\t\x7d\n",
    "\t\t\t\t\t\x7d\n",
    "\t\t\t\t\tcursor\n",
    "\t\t\t\t\x7d\n",
    "\t\t\t\tpageInfo\x7b\n",
    "\t\t\t\t\thasNextPage\n",
    "\t\t\t\t\x7d\t\t\t\t\n",
    "\t\t\t\x7d\n",
    "\t\t\x7d\n",
    "\n",
    "\t\t%s\n",
    "\t"]

/-- The variable `collectionQuery` of `collection.go`. -/
def collectionQuery : String :=
  String.join [
    "\n",
    "\tid\n",
    "\thandle\t\n",
    "\ttitle\n",
    "\n",
    "\tproducts(first:250, after: $cursor)\x7b\n",
    "\t\tedges\x7b\n",
    "\t\t\tnode\x7b\n",
    "\t\t\t\tid\n",
    "\t\t\t\x7d\n",
    "\t\t\tcursor\n",
    "\t\t\x7d\n",
    "\t\tpageInfo\x7b\n",
    "\t\t\thasNextPage\n",
    "\t\t\x7d\t\t\n",
    "\t\x7d\t\n"]

/-- The variable `collectionBulkQuery` of `collection.go`. -/
def collectionBulkQuery : String :=
  String.join [
    "\n",
    "\tid\n",
    "\thandle\t\n",
    "\ttitle\n"]

/-- The format string of `CollectionServiceOp.ListAll`. -/
def Collection_ListAll_format : String :=
  String.join [
    "\n",
    "\t\t\x7b\n",
    "\t\t\tcollections\x7b\n",
    "\t\t\t\tedges\x7b\n",
    "\t\t\t\t\tnode\x7b\n",
    "\t\t\t\t\t\t%s\n",
    "\t\t\t\t\t\x7d\n",
    "\t\t\t\t\x7d\n",
    "\t\t\t\x7d\n",
    "\t\t\x7d\n",
    "\t"]

/-- The format string of `CollectionServiceOp.getPage`. -/
def getPage_format : String :=
  String.join [
    "\n",
    "\t\tquery collection($id: ID!, $cursor: String) \x7b\n",
    "\t\t\tcollection(id: $id)\x7b\n",
    "\t\t\t\t%s\n",
    "\t\t\t\x7d\n",
    "\t\t\x7d\n",
    "\t"]

/-- The query string of `LocationServiceOp.Get`. -/
def Location_Get_query : String :=
  String.join [
    "query location($id: ID!) \x7b\n",
    "\t\tlocation(id: $id)\x7b\n",
    "\t\t\tid\n",
    "\t\t\tname\n",
    "\t\t\x7d\n",
    "\t\x7d"]


/-! ## Order.ListAfterCursor -/

/-- The variable map built by `OrderServiceOp.ListAfterCursor`. -/
def ListAfterCursor_vars (opts : ListOptions) : Vars :=
  let vars : Vars := [("query", .str opts.Query), ("reverse", .bool opts.Reverse)]
  let vars :=
    if opts.After ≠ "" then vars.set "after" (.str opts.After)
    else if opts.Before ≠ "" then vars.set "before" (.str opts.Before)
    else vars
  if opts.First > 0 then vars.set "first" (.int opts.First)
  else if opts.Last > 0 then vars.set "last" (.int opts.Last)
  else vars

/-- The loop `for _, o := range out.Orders.Edges` of `ListAfterCursor`:
appends the order each edge points to, and panics at an edge without one. -/
def collectOrders : List OrderEdge → List Order → Run (List Order)
  | [], res => .returned res
  | e :: rest, res =>
    match e.OrderQueryResult with
    | none => .panicked nilDeref
    | some o => collectOrders rest (res ++ [o])

/-- The results of `ListAfterCursor`: items, firstCursor, lastCursor, error. -/
abbrev PageResult := Option (List Order) × Option String × Option String × Option Err

/-- The part of `ListAfterCursor` after the collaborator's call. -/
def ListAfterCursor_result : Except Err OrdersOut → Run PageResult
  | .error err => .returned (none, none, none, some (Errorf_w "query: " err))
  | .ok out =>
    match out.Edges with
    | [] => .returned (some [], none, none, none)
    | e :: rest =>
      let firstCursor := e.Cursor
      let lastCursor := ((e :: rest).getLast (List.cons_ne_nil e rest)).Cursor
      match collectOrders (e :: rest) [] with
      | .panicked t => .panicked t
      | .returned res => .returned (some res, some firstCursor, some lastCursor, none)

/-- The collaborator `client.gql.QueryString` as `ListAfterCursor` uses it:
from the query text and the variables to the decoded page or an error. -/
abbrev OrdersQuery := String → Vars → Except Err OrdersOut

/-- The query text of `ListAfterCursor`. -/
def ListAfterCursor_query : String :=
  Sprintf ListAfterCursor_format [orderLightQuery, lineItemFragmentLight]

/-- The method `OrderServiceOp.ListAfterCursor`. -/
def OrderServiceOp.ListAfterCursor (QueryString : OrdersQuery) (opts : ListOptions) :
    Run PageResult :=
  ListAfterCursor_result (QueryString ListAfterCursor_query (ListAfterCursor_vars opts))

/-! ## Bulk listings -/

/-- The collaborator `client.BulkOperation.BulkQuery(ctx, q, &res)`: from
the query text and the destination as passed in, to the destination as
left behind and the error. -/
abbrev BulkQuery (α : Type) := String → List α → List α × Option Err

/-- One element of `Products.Edges` of a collection: the product it points
to, by its ID, and its cursor. -/
structure ProductEdge where
  NodeID : String
  Cursor : String
  deriving DecidableEq, Repr

/-- The field `PageInfo` of a product connection. -/
structure PageInfo where
  HasNextPage : Bool
  deriving DecidableEq, Repr

/-- The field `Products` of a collection. -/
structure ProductConnection where
  Edges : List ProductEdge
  PageInfo : PageInfo
  deriving DecidableEq, Repr

/-- The type `model.Collection` with the fields the services read. The
package `model` lies outside this repository; the product connection and
its page information are taken as present in every decoded collection. -/
structure Collection where
  ID : String
  Handle : String
  Title : String
  Products : ProductConnection
  deriving DecidableEq, Repr

/-- The query text of `CollectionServiceOp.ListAll`. -/
def CollectionServiceOp.ListAll_query : String :=
  Sprintf Collection_ListAll_format [collectionBulkQuery]

/-- The method `CollectionServiceOp.ListAll`. -/
def CollectionServiceOp.ListAll (BulkQuery : BulkQuery Collection) :
    Option (List Collection) × Option Err :=
  let q := CollectionServiceOp.ListAll_query
  let res : List Collection := []
  match BulkQuery q res with
  | (_, some err) => (none, some (Errorf_w "bulk query: " err))
  | (res, none) => (some res, none)

/-- The query text of `OrderServiceOp.List`. -/
def OrderServiceOp.List_query (opts : ListOptions) : String :=
  let q := Sprintf Order_List_format [orderBaseQuery, lineItemFragment]
  ReplaceAll q "$query" opts.Query

/-- The method `OrderServiceOp.List`. -/
def OrderServiceOp.List (BulkQuery : BulkQuery Order) (opts : ListOptions) :
    Option (Slice Order) × Option Err :=
  let q := OrderServiceOp.List_query opts
  let res : Slice Order := []
  match BulkQuery q res with
  | (_, some err) => (none, some (Errorf_w "bulk query: " err))
  | (res, none) => (some res, none)

/-- The query text of `OrderServiceOp.ListAll`: the format is filled in and
submitted as it is. -/
def OrderServiceOp.ListAll_query : String :=
  Sprintf Order_ListAll_format [orderBaseQuery, lineItemFragment]

/-- The method `OrderServiceOp.ListAll`. -/
def OrderServiceOp.ListAll (BulkQuery : BulkQuery Order) :
    Option (Slice Order) × Option Err :=
  let q := OrderServiceOp.ListAll_query
  let res : Slice Order := []
  match BulkQuery q res with
  | (_, some err) => (none, some (Errorf_w "bulk query: " err))
  | (res, none) => (some res, none)

/-! ## Single-record getters -/

/-- The type `model.Location` with the fields the query asks for. -/
structure Location where
  ID : String
  Name : String
  deriving DecidableEq, Repr

/-- The method `LocationServiceOp.Get`; the collaborator decodes the field
`location` into a pointer, `none` for a null location. -/
def LocationServiceOp.Get (QueryString : String → Vars → Except Err (Option Location))
    (id : String) : Option Location × Option Err :=
  let q := Location_Get_query
  let vars : Vars := [("id", .str id)]
  match QueryString q vars with
  | .error err => (none, some (Errorf_w "query: " err))
  | .ok out => (out, none)

/-- The query text of `OrderServiceOp.Get`. -/
def OrderServiceOp.Get_query : String :=
  Sprintf Order_Get_format [orderBaseQuery, lineItemFragment]

/-- The method `OrderServiceOp.Get`; the collaborator decodes the field
`node` into a pointer, `none` for a null node. -/
def OrderServiceOp.Get (QueryString : String → Vars → Except Err (Option Order))
    (id : String) : Option Order × Option Err :=
  let q := OrderServiceOp.Get_query
  let vars : Vars := [("id", .str id)]
  match QueryString q vars with
  | .error err => (none, some (Errorf_w "query: " err))
  | .ok out => (out, none)

/-! ## Collection.Get -/

/-- The collaborator `client.gql.QueryString` as `getPage` uses it, with
the state `σ` of the remote side threaded through: from the query text and
the variables to the decoded field `collection` (`none` when null) or an
error. -/
abbrev CollectionQuery (σ : Type) := σ → String → Vars → σ × Except Err (Option Collection)

/-- The query text of `CollectionServiceOp.getPage`. -/
def CollectionServiceOp.getPage_query : String :=
  Sprintf getPage_format [collectionQuery]

/-- The variable map built by `CollectionServiceOp.getPage`. -/
def CollectionServiceOp.getPage_vars (id cursor : String) : Vars :=
  let vars : Vars := [("id", .str id)]
  if cursor ≠ "" then vars.set "cursor" (.str cursor) else vars

/-- The method `CollectionServiceOp.getPage`. -/
def CollectionServiceOp.getPage {σ : Type} (QueryString : CollectionQuery σ) (s : σ)
    (id cursor : String) : σ × (Option Collection × Option Err) :=
  let q := CollectionServiceOp.getPage_query
  let vars := CollectionServiceOp.getPage_vars id cursor
  match QueryString s q vars with
  | (s, .error err) => (s, (none, some (Errorf_w "query: " err)))
  | (s, .ok out) => (s, (out, none))

/-- The results of `CollectionServiceOp.Get`. -/
abbrev GetResult := Option Collection × Option Err

/-- The `for` loop of `CollectionServiceOp.Get`, one unit of fuel per test
of its condition; `none` when the fuel runs out.

The variable `nextPageData` tested by the loop is the one declared before
it, a copy of the pointer `out`: the `:=` in the body declares a second
`nextPageData` local to the body. So the condition and the cursor read the
edges of `out`, to which each page has been appended. The page of the body
is dereferenced without a test. -/
def CollectionServiceOp.Get_loop {σ : Type} (QueryString : CollectionQuery σ) (id : String) :
    Nat → σ → Collection → Bool → Option (σ × Run GetResult)
  | 0, _, _, _ => none
  | fuel + 1, s, out, hasNextPage =>
    if h : hasNextPage = true ∧ out.Products.Edges ≠ [] then
      let cursor := (out.Products.Edges.getLast h.2).Cursor
      match CollectionServiceOp.getPage QueryString s id cursor with
      | (s, (_, some err)) => some (s, .returned (none, some err))
      | (s, (none, none)) => some (s, .panicked nilDeref)
      | (s, (some nextPageData, none)) =>
        let out := { out with Products :=
          { out.Products with Edges := out.Products.Edges ++ nextPageData.Products.Edges } }
        CollectionServiceOp.Get_loop QueryString id fuel s out
          nextPageData.Products.PageInfo.HasNextPage
    else some (s, .returned (some out, none))

/-- The method `CollectionServiceOp.Get`, with the fuel of its loop. The
first page is dereferenced without a test. -/
def CollectionServiceOp.Get {σ : Type} (QueryString : CollectionQuery σ) (fuel : Nat) (s : σ)
    (id : String) : Option (σ × Run GetResult) :=
  match CollectionServiceOp.getPage QueryString s id "" with
  | (s, (_, some err)) => some (s, .returned (none, some err))
  | (s, (none, none)) => some (s, .panicked nilDeref)
  | (s, (some out, none)) =>
    CollectionServiceOp.Get_loop QueryString id fuel s out out.Products.PageInfo.HasNextPage

/-- A remote side that serves a fixed sequence of answers, one per request,
and keeps the requests it received. -/
structure Served where
  pending : List (Except Err (Option Collection))
  requests : List (String × Vars)
  deriving Repr

/-- The collaborator of a `Served` remote side: it records the request and
gives the next pending answer, an error once none is left. -/
def servePages : CollectionQuery Served := fun s q vars =>
  match s.pending with
  | [] => ({ s with requests := s.requests ++ [(q, vars)] }, .error (.plain "no answer left"))
  | r :: rest => ({ pending := rest, requests := s.requests ++ [(q, vars)] }, r)

/-- The cursor of the last edge of a page, empty for a page without edges. -/
def lastCursor (p : Collection) : String :=
  match p.Products.Edges.getLast? with
  | some e => e.Cursor
  | none => ""

/-! ## Collection.CreateBulk -/

/-- The type `model.CollectionInput`, abridged. -/
structure CollectionInput where
  Title : String
  deriving DecidableEq, Repr

/-- The method `Create` of the interface `CollectionService` held by the
client, with the state `σ` of the remote side threaded through. -/
abbrev CreateFn (σ : Type) := σ → CollectionInput → σ × (Option String × Option Err)

/-- The method `CollectionServiceOp.CreateBulk`; next to the returned error
it yields the final state and the warnings given to `log.Warnf`, each the
input and the text of the error. -/
def CollectionServiceOp.CreateBulk {σ : Type} (Create : CreateFn σ) :
    σ → List (CollectionInput × String) → List CollectionInput →
      (σ × List (CollectionInput × String)) × Option Err
  | s, log, [] => ((s, log), none)
  | s, log, c :: rest =>
    match Create s c with
    | (s, (_, some err)) =>
      CollectionServiceOp.CreateBulk Create s (log ++ [(c, err.Error)]) rest
    | (s, (_, none)) => CollectionServiceOp.CreateBulk Create s log rest

/-- A `Create` that records each input it is called with and fails or
succeeds as `fails` says of the number of the call and the input. -/
def recordCreate (fails : Nat → CollectionInput → Option Err) : CreateFn (List CollectionInput) :=
  fun calls c =>
    match fails calls.length c with
    | some err => (calls ++ [c], (none, some err))
    | none => (calls ++ [c], (some c.Title, none))

/-! ## Reference collaborator of the cursor round trip -/

/-- The edges strictly after the edge with cursor `c`. -/
def edgesAfter (c : String) : List OrderEdge → List OrderEdge
  | [] => []
  | e :: rest => if e.Cursor = c then rest else edgesAfter c rest

/-- The edges of a backing list of orders with their cursors. -/
def backingEdges (backing : List (Order × String)) : List OrderEdge :=
  backing.map (fun oc => { OrderQueryResult := some oc.1, Cursor := oc.2 })

/-- A collaborator over a fixed backing list: it returns the `first` items
strictly after the `after` cursor, from the start when `after` is absent. -/
def referenceOrders (backing : List (Order × String)) : OrdersQuery := fun _ vars =>
  let start :=
    match vars.get "after" with
    | some (.str c) => edgesAfter c (backingEdges backing)
    | _ => backingEdges backing
  let page :=
    match vars.get "first" with
    | some (.int k) => start.take k.toNat
    | _ => start
  .ok { Edges := page, HasNextPage := decide (page.length < start.length) }

/-! ## Pagination arguments -/

/-- The forward-pagination arguments of a variable map, `first` or `after`. -/
def hasForward (vars : Vars) : Bool :=
  vars.has "first" || vars.has "after"

/-- The backward-pagination arguments of a variable map, `last` or `before`. -/
def hasBackward (vars : Vars) : Bool :=
  vars.has "last" || vars.has "before"

/-! ## Pages served to Collection.Get -/

/-- The request `getPage` sends for a cursor. -/
def pageRequest (id cursor : String) : String × Vars :=
  (CollectionServiceOp.getPage_query, CollectionServiceOp.getPage_vars id cursor)

/-- The answers of a remote side that serves the given pages. -/
def pageAnswers (pages : List Collection) : List (Except Err (Option Collection)) :=
  pages.map (fun p => .ok (some p))

/-- The collection `out` with its product edges replaced. -/
def withEdges (out : Collection) (edges : List ProductEdge) : Collection :=
  { out with Products := { out.Products with Edges := edges } }

/-- A first page of two product edges with a next page. -/
def examplePage0 : Collection :=
  ⟨"gid://shopify/Collection/1", "summer", "Summer", ⟨[⟨"p1", "c1"⟩, ⟨"p2", "c2"⟩], ⟨true⟩⟩⟩

/-- A last page of one product edge. -/
def examplePage1 : Collection :=
  ⟨"gid://shopify/Collection/1", "summer", "Summer", ⟨[⟨"p3", "c3"⟩], ⟨false⟩⟩⟩

/-- A backing list of three orders with distinct, non-empty cursors. -/
def exampleBacking : List (Order × String) :=
  [(⟨"1", "#1001"⟩, "a"), (⟨"2", "#1002"⟩, "b"), (⟨"3", "#1003"⟩, "c")]

/-- A backing list of three orders with distinct cursors, the first of
which is the empty string. -/
def emptyCursorBacking : List (Order × String) :=
  [(⟨"1", "#1001"⟩, ""), (⟨"2", "#1002"⟩, "b"), (⟨"3", "#1003"⟩, "c")]

/-! ## The variable map of ListAfterCursor -/

/-- Which of the four pagination keys the map of `ListAfterCursor` holds. -/
theorem ListAfterCursor_vars_keys (opts : ListOptions) :
    ((ListAfterCursor_vars opts).has "after" = true ↔ opts.After ≠ "") ∧
    ((ListAfterCursor_vars opts).has "before" = true ↔ opts.After = "" ∧ opts.Before ≠ "") ∧
    ((ListAfterCursor_vars opts).has "first" = true ↔ opts.First > 0) ∧
    ((ListAfterCursor_vars opts).has "last" = true ↔ ¬ opts.First > 0 ∧ opts.Last > 0) := by
  unfold ListAfterCursor_vars
  by_cases hA : opts.After = "" <;> by_cases hB : opts.Before = "" <;>
    by_cases hF : opts.First > 0 <;> by_cases hL : opts.Last > 0 <;>
    simp [hA, hB, hF, hL, Vars.set, Vars.get, Vars.has, List.lookup]

/-- C5: the variable map sent by `ListAfterCursor` holds at most one of the
keys `first`/`last` and at most one of the keys `before`/`after`, for every
`ListOptions`, also one that sets both members of a pair. -/
theorem ListAfterCursor_vars_at_most_one (QueryString : OrdersQuery) (opts : ListOptions) :
    OrderServiceOp.ListAfterCursor QueryString opts =
        ListAfterCursor_result (QueryString ListAfterCursor_query (ListAfterCursor_vars opts)) ∧
    ¬ ((ListAfterCursor_vars opts).has "first" = true ∧
        (ListAfterCursor_vars opts).has "last" = true) ∧
    ¬ ((ListAfterCursor_vars opts).has "before" = true ∧
        (ListAfterCursor_vars opts).has "after" = true) := by
  obtain ⟨hA, hB, hF, hL⟩ := ListAfterCursor_vars_keys opts
  refine ⟨rfl, ?_, ?_⟩
  · rintro ⟨h1, h2⟩
    exact (hL.1 h2).1 (hF.1 h1)
  · rintro ⟨h1, h2⟩
    exact (hA.1 h2) (hB.1 h1).1

/-- C1 (as amended): the variable map sent by `ListAfterCursor` holds a
forward argument (`first` or `after`) together with a backward argument
(`last` or `before`) exactly when the options themselves mix the directions:
`After` with `Last` and no positive `First`, or `Before` with a positive
`First` and no `After`. -/
theorem ListAfterCursor_vars_mixed_iff (opts : ListOptions) :
    (hasForward (ListAfterCursor_vars opts) = true ∧
        hasBackward (ListAfterCursor_vars opts) = true) ↔
      (opts.After ≠ "" ∧ ¬ opts.First > 0 ∧ opts.Last > 0) ∨
      (opts.After = "" ∧ opts.Before ≠ "" ∧ opts.First > 0) := by
  obtain ⟨hA, hB, hF, hL⟩ := ListAfterCursor_vars_keys opts
  simp only [hasForward, hasBackward, Bool.or_eq_true, hA, hB, hF, hL]
  tauto

/-- C1 (counterexample): options that set only `After` and `Last` (no
`First`, no `Before`) are sent with `after` and `last` together. -/
theorem ListAfterCursor_vars_after_with_last :
    ({ After := "c", Last := 5 } : ListOptions).First = 0 ∧
    ({ After := "c", Last := 5 } : ListOptions).Before = "" ∧
    (ListAfterCursor_vars { After := "c", Last := 5 }).get "after" = some (.str "c") ∧
    (ListAfterCursor_vars { After := "c", Last := 5 }).get "last" = some (.int 5) ∧
    hasForward (ListAfterCursor_vars { After := "c", Last := 5 }) = true ∧
    hasBackward (ListAfterCursor_vars { After := "c", Last := 5 }) = true := by
  decide

/-! ## The page returned by ListAfterCursor -/

/-- The loop over edges that all carry a node appends the nodes in order. -/
theorem collectOrders_nodes (edges : List OrderEdge) (nodes res : List Order)
    (h : edges.map (fun e => e.OrderQueryResult) = nodes.map some) :
    collectOrders edges res = .returned (res ++ nodes) := by
  induction edges generalizing nodes res with
  | nil =>
    cases nodes with
    | nil => simp [collectOrders]
    | cons n ns => simp at h
  | cons e rest ih =>
    cases nodes with
    | nil => simp at h
    | cons n ns =>
      simp only [List.map_cons, List.cons.injEq] at h
      simp [collectOrders, h.1, ih ns (res ++ [n]) h.2]

/-- The loop panics exactly when some edge carries no node. -/
theorem collectOrders_panics_iff (edges : List OrderEdge) (res : List Order) :
    collectOrders edges res = .panicked nilDeref ↔ ∃ e ∈ edges, e.OrderQueryResult = none := by
  induction edges generalizing res with
  | nil => simp [collectOrders]
  | cons e rest ih =>
    cases hn : e.OrderQueryResult with
    | none => simp [collectOrders, hn]
    | some o => simp [collectOrders, hn, ih]

/-- Edges that all carry a node are the images of a list of nodes. -/
theorem nodes_of_edges (edges : List OrderEdge)
    (h : ∀ e ∈ edges, e.OrderQueryResult ≠ none) :
    ∃ nodes : List Order, edges.map (fun e => e.OrderQueryResult) = nodes.map some := by
  induction edges with
  | nil => exact ⟨[], rfl⟩
  | cons e rest ih =>
    obtain ⟨ns, hns⟩ := ih (fun x hx => h x (List.mem_cons_of_mem _ hx))
    cases hn : e.OrderQueryResult with
    | none => exact absurd hn (h e (List.mem_cons_self _ _))
    | some o => exact ⟨o :: ns, by simp [hns, hn]⟩

/-- C4: for a successful response with at least one edge, every edge
carrying a node, `ListAfterCursor` returns the nodes of the edges in edge
order (so as many items as edges), the cursor of the first edge as
firstCursor, the cursor of the last edge as lastCursor, and a nil error. -/
theorem ListAfterCursor_items_and_cursors (QueryString : OrdersQuery) (opts : ListOptions)
    (out : OrdersOut) (nodes : List Order)
    (hQ : QueryString ListAfterCursor_query (ListAfterCursor_vars opts) = .ok out)
    (hne : out.Edges ≠ [])
    (hnodes : out.Edges.map (fun e => e.OrderQueryResult) = nodes.map some) :
    OrderServiceOp.ListAfterCursor QueryString opts =
        .returned (some nodes, some (out.Edges.head hne).Cursor,
          some (out.Edges.getLast hne).Cursor, none) ∧
    nodes.length = out.Edges.length ∧
    ∀ (i : Nat) (h : i < out.Edges.length),
      (out.Edges.get ⟨i, h⟩).OrderQueryResult = nodes[i]? := by
  have hlen : nodes.length = out.Edges.length := by
    have := congrArg List.length hnodes
    simpa using this.symm
  refine ⟨?_, hlen, ?_⟩
  · unfold OrderServiceOp.ListAfterCursor
    rw [hQ]
    obtain ⟨edges, hnp⟩ := out
    cases edges with
    | nil => exact absurd rfl hne
    | cons e rest =>
      simp only [ListAfterCursor_result]
      rw [collectOrders_nodes (e :: rest) nodes [] hnodes]
      simp
  · intro i h
    have := congrArg (fun l => l[i]?) hnodes
    simp only [List.getElem?_map] at this
    rw [List.getElem?_eq_getElem h] at this
    cases hi : nodes[i]? with
    | none => simp [hi] at this
    | some n =>
      rw [hi] at this
      simpa using this

/-- C4 (witness): a response of two edges with their nodes. -/
theorem ListAfterCursor_items_and_cursors_witness :
    OrderServiceOp.ListAfterCursor
        (fun _ _ => .ok ⟨[⟨some ⟨"1", "a"⟩, "c1"⟩, ⟨some ⟨"2", "b"⟩, "c2"⟩], true⟩) {} =
      .returned (some [⟨"1", "a"⟩, ⟨"2", "b"⟩], some "c1", some "c2", none) :=
  (ListAfterCursor_items_and_cursors
    (fun _ _ => .ok ⟨[⟨some ⟨"1", "a"⟩, "c1"⟩, ⟨some ⟨"2", "b"⟩, "c2"⟩], true⟩) {}
    ⟨[⟨some ⟨"1", "a"⟩, "c1"⟩, ⟨some ⟨"2", "b"⟩, "c2"⟩], true⟩ [⟨"1", "a"⟩, ⟨"2", "b"⟩]
    rfl (by simp) rfl).1

/-- C2 (as amended): when the collaborator succeeds, a page without edges
gives an empty item sequence, nil cursors and a nil error; a page with at
least one edge whose edges all carry a node gives both cursors non-nil; and
on a page with at least one edge no return has a nil cursor. -/
theorem ListAfterCursor_cursors_nil_iff_empty (QueryString : OrdersQuery) (opts : ListOptions)
    (out : OrdersOut)
    (hQ : QueryString ListAfterCursor_query (ListAfterCursor_vars opts) = .ok out) :
    (out.Edges = [] →
      OrderServiceOp.ListAfterCursor QueryString opts = .returned (some [], none, none, none)) ∧
    (out.Edges ≠ [] → (∀ e ∈ out.Edges, e.OrderQueryResult ≠ none) →
      ∃ items firstCursor lastCursor,
        OrderServiceOp.ListAfterCursor QueryString opts =
          .returned (some items, some firstCursor, some lastCursor, none)) ∧
    (out.Edges ≠ [] → ∀ items firstCursor lastCursor err,
      OrderServiceOp.ListAfterCursor QueryString opts =
          .returned (items, firstCursor, lastCursor, err) →
        firstCursor ≠ none ∧ lastCursor ≠ none) := by
  unfold OrderServiceOp.ListAfterCursor
  rw [hQ]
  obtain ⟨edges, hnp⟩ := out
  refine ⟨?_, ?_, ?_⟩
  · intro h
    simp only at h
    subst h
    rfl
  · intro hne hall
    obtain ⟨nodes, hnodes⟩ := nodes_of_edges edges hall
    cases edges with
    | nil => exact absurd rfl hne
    | cons e rest =>
      simp only [ListAfterCursor_result]
      rw [collectOrders_nodes (e :: rest) nodes [] hnodes]
      exact ⟨_, _, _, rfl⟩
  · intro hne items fc lc err hret
    cases edges with
    | nil => exact absurd rfl hne
    | cons e rest =>
      simp only [ListAfterCursor_result] at hret
      cases hc : collectOrders (e :: rest) [] with
      | panicked t => simp [hc] at hret
      | returned res =>
        simp only [hc, Run.returned.injEq, Prod.mk.injEq] at hret
        obtain ⟨-, h1, h2, -⟩ := hret
        subst h1 h2
        simp

/-- C2 (witness): an empty page, and a page of one edge with its node, the
collaborator having succeeded. -/
theorem ListAfterCursor_cursors_nil_iff_empty_witness :
    OrderServiceOp.ListAfterCursor (fun _ _ => .ok ⟨[], false⟩) { First := 10 } =
      .returned (some [], none, none, none) ∧
    ∃ items firstCursor lastCursor,
      OrderServiceOp.ListAfterCursor (fun _ _ => .ok ⟨[⟨some ⟨"1", "#1001"⟩, "c1"⟩], false⟩)
          { First := 10 } =
        .returned (some items, some firstCursor, some lastCursor, none) :=
  ⟨(ListAfterCursor_cursors_nil_iff_empty (fun _ _ => .ok ⟨[], false⟩) { First := 10 }
      ⟨[], false⟩ rfl).1 rfl,
    (ListAfterCursor_cursors_nil_iff_empty
      (fun _ _ => .ok ⟨[⟨some ⟨"1", "#1001"⟩, "c1"⟩], false⟩) { First := 10 }
      ⟨[⟨some ⟨"1", "#1001"⟩, "c1"⟩], false⟩ rfl).2.1 (by simp) (by simp)⟩

/-- C2 (counterexample): on a page of one edge that carries no node the call
panics on the missing node and returns no cursors at all. -/
theorem ListAfterCursor_panics_on_edge_without_node :
    OrderServiceOp.ListAfterCursor (fun _ _ => .ok ⟨[⟨none, "c1"⟩], false⟩) {} =
        .panicked nilDeref ∧
    ¬ ∃ items firstCursor lastCursor err,
      OrderServiceOp.ListAfterCursor (fun _ _ => .ok ⟨[⟨none, "c1"⟩], false⟩) {} =
        .returned (items, firstCursor, lastCursor, err) := by
  have h : OrderServiceOp.ListAfterCursor (fun _ _ => .ok ⟨[⟨none, "c1"⟩], false⟩) {} =
      .panicked nilDeref := rfl
  refine ⟨h, ?_⟩
  rintro ⟨items, fc, lc, err, hret⟩
  rw [h] at hret
  cases hret

/-! ## Bulk listings -/

/-- C6: when `BulkQuery` returns an error, whatever it left in the
destination, each of `Collection.ListAll`, `Order.List` and `Order.ListAll`
returns a nil sequence and a non-nil error that wraps the collaborator's. -/
theorem bulk_error_gives_no_partial_result
    (bulkCollections : BulkQuery Collection) (bulkOrders : BulkQuery Order)
    (opts : ListOptions) (writtenC : List Collection) (writtenL writtenA : List Order)
    (errC errL errA : Err)
    (hC : bulkCollections CollectionServiceOp.ListAll_query [] = (writtenC, some errC))
    (hL : bulkOrders (OrderServiceOp.List_query opts) [] = (writtenL, some errL))
    (hA : bulkOrders OrderServiceOp.ListAll_query [] = (writtenA, some errA)) :
    (∃ e, CollectionServiceOp.ListAll bulkCollections = (none, some e) ∧
      e.Unwrap = some errC ∧ e.Error = "bulk query: " ++ errC.Error) ∧
    (∃ e, OrderServiceOp.List bulkOrders opts = (none, some e) ∧
      e.Unwrap = some errL ∧ e.Error = "bulk query: " ++ errL.Error) ∧
    (∃ e, OrderServiceOp.ListAll bulkOrders = (none, some e) ∧
      e.Unwrap = some errA ∧ e.Error = "bulk query: " ++ errA.Error) := by
  refine ⟨⟨Errorf_w "bulk query: " errC, ?_, rfl, rfl⟩,
    ⟨Errorf_w "bulk query: " errL, ?_, rfl, rfl⟩,
    ⟨Errorf_w "bulk query: " errA, ?_, rfl, rfl⟩⟩
  · simp only [CollectionServiceOp.ListAll, hC]
  · simp only [OrderServiceOp.List, hL]
  · simp only [OrderServiceOp.ListAll, hA]

/-- C6 (witness): a collaborator that fails after writing one record. -/
theorem bulk_error_gives_no_partial_result_witness :
    (∃ e, CollectionServiceOp.ListAll
        (fun _ _ => ([⟨"1", "h", "t", ⟨[], ⟨false⟩⟩⟩], some (.plain "job failed"))) =
        (none, some e) ∧
      e.Unwrap = some (.plain "job failed") ∧ e.Error = "bulk query: " ++ "job failed") ∧
    (∃ e, OrderServiceOp.List
        (fun _ _ => ([⟨"1", "a"⟩], some (.plain "truncated"))) { Query := "x" } =
        (none, some e) ∧
      e.Unwrap = some (.plain "truncated") ∧ e.Error = "bulk query: " ++ "truncated") ∧
    (∃ e, OrderServiceOp.ListAll
        (fun _ _ => ([⟨"1", "a"⟩], some (.plain "truncated"))) = (none, some e) ∧
      e.Unwrap = some (.plain "truncated") ∧ e.Error = "bulk query: " ++ "truncated") :=
  bulk_error_gives_no_partial_result
    (fun _ _ => ([⟨"1", "h", "t", ⟨[], ⟨false⟩⟩⟩], some (.plain "job failed")))
    (fun _ _ => ([⟨"1", "a"⟩], some (.plain "truncated"))) { Query := "x" }
    [⟨"1", "h", "t", ⟨[], ⟨false⟩⟩⟩] [⟨"1", "a"⟩] [⟨"1", "a"⟩]
    (.plain "job failed") (.plain "truncated") (.plain "truncated") rfl rfl rfl

/-! ## Collection.CreateBulk -/

/-- For any `Create`, `CreateBulk` returns a nil error and leaves the remote
side as the successive calls of `Create` on the inputs, in order, leave it. -/
theorem CreateBulk_state {σ : Type} (Create : CreateFn σ) (s : σ)
    (log : List (CollectionInput × String)) (inputs : List CollectionInput) :
    (CollectionServiceOp.CreateBulk Create s log inputs).2 = none ∧
    (CollectionServiceOp.CreateBulk Create s log inputs).1.1 =
      inputs.foldl (fun s c => (Create s c).1) s := by
  induction inputs generalizing s log with
  | nil => exact ⟨rfl, rfl⟩
  | cons c rest ih =>
    rcases hc : Create s c with ⟨s1, id, _ | err⟩
    · simpa [CollectionServiceOp.CreateBulk, hc] using ih s1 log
    · simpa [CollectionServiceOp.CreateBulk, hc] using ih s1 (log ++ [(c, err.Error)])

/-- The calls recorded by `recordCreate` over a run of `CreateBulk`, and the
warnings of the run. -/
theorem CreateBulk_recorded (fails : Nat → CollectionInput → Option Err)
    (calls : List CollectionInput) (log : List (CollectionInput × String))
    (inputs : List CollectionInput) :
    CollectionServiceOp.CreateBulk (recordCreate fails) calls log inputs =
      ((calls ++ inputs,
        log ++ (inputs.enumFrom calls.length).filterMap
          (fun ic => (fails ic.1 ic.2).map (fun e => (ic.2, e.Error)))), none) := by
  induction inputs generalizing calls log with
  | nil => simp [CollectionServiceOp.CreateBulk]
  | cons c rest ih =>
    cases hf : fails calls.length c with
    | none =>
      simp [CollectionServiceOp.CreateBulk, recordCreate, hf, ih, List.enumFrom]
    | some err =>
      simp [CollectionServiceOp.CreateBulk, recordCreate, hf, ih, List.enumFrom]

/-- C10: for every list of inputs and every outcome of the individual
`Create` calls, `CreateBulk` calls `Create` once per input, in list order,
also after a failed call (it warns of each failure), and returns a nil
error. -/
theorem CreateBulk_calls_every_input_and_returns_nil
    (fails : Nat → CollectionInput → Option Err) (inputs : List CollectionInput) :
    CollectionServiceOp.CreateBulk (recordCreate fails) [] [] inputs =
      ((inputs,
        inputs.enum.filterMap (fun ic => (fails ic.1 ic.2).map (fun e => (ic.2, e.Error)))),
        none) ∧
    ∀ (σ : Type) (Create : CreateFn σ) (s : σ),
      (CollectionServiceOp.CreateBulk Create s [] inputs).2 = none ∧
      (CollectionServiceOp.CreateBulk Create s [] inputs).1.1 =
        inputs.foldl (fun s c => (Create s c).1) s := by
  refine ⟨?_, fun σ Create s => CreateBulk_state Create s [] inputs⟩
  simpa [List.enum] using CreateBulk_recorded fails [] [] inputs

/-! ## Null collection and the query of ListAll -/

/-- C8 (the code at the failing input): when the first page request is
answered without error and with a null collection, `Collection.Get` issues
that one request and panics on the nil pointer, whereas `Location.Get` and
`Order.Get` return a nil record and a nil error for a null node. -/
theorem Get_null_collection_panics (id : String) (fuel : Nat) :
    CollectionServiceOp.Get servePages fuel ⟨[.ok none], []⟩ id =
      some (⟨[], [(CollectionServiceOp.getPage_query, [("id", .str id)])]⟩,
        .panicked nilDeref) ∧
    LocationServiceOp.Get (fun _ _ => .ok none) id = (none, none) ∧
    OrderServiceOp.Get (fun _ _ => .ok none) id = (none, none) := by
  refine ⟨?_, rfl, rfl⟩
  simp [CollectionServiceOp.Get, CollectionServiceOp.getPage, servePages,
    CollectionServiceOp.getPage_vars]

set_option maxRecDepth 100000 in
/-- C9 (the code at the failing input): the text `ListAll` submits differs
from the text `List` submits for an empty `Query`, and it still holds the
placeholder `$query`, which `List` has replaced. -/
theorem ListAll_query_keeps_placeholder :
    OrderServiceOp.ListAll_query ≠ OrderServiceOp.List_query { Query := "" } ∧
    Contains OrderServiceOp.ListAll_query "$query" = true ∧
    Contains (OrderServiceOp.List_query { Query := "" }) "$query" = false ∧
    OrderServiceOp.ListAll (fun q _ => ([], some (.plain q))) =
      (none, some (Errorf_w "bulk query: " (.plain OrderServiceOp.ListAll_query))) := by
  refine ⟨by decide, by decide, by decide, rfl⟩

/-! ## Collection.Get over a sequence of pages -/

/-- One call of `getPage` against a remote side with a page pending. -/
theorem getPage_served (p : Collection) (rest : List (Except Err (Option Collection)))
    (reqs : List (String × Vars)) (id cursor : String) :
    CollectionServiceOp.getPage servePages ⟨.ok (some p) :: rest, reqs⟩ id cursor =
      (⟨rest, reqs ++ [pageRequest id cursor]⟩, (some p, none)) := by
  simp [CollectionServiceOp.getPage, servePages, pageRequest]

/-- The cursor of the last edge after a page with edges has been appended. -/
theorem lastCursor_append (out p : Collection) (h : p.Products.Edges ≠ []) :
    lastCursor (withEdges out (out.Products.Edges ++ p.Products.Edges)) = lastCursor p := by
  simp [lastCursor, withEdges, List.getLast?_append, List.getLast?_eq_getLast _ h]

/-- The loop of `Get` once a page with a next page has been read: it reads
the pages left, each with the cursor of the last edge read so far. -/
theorem Get_loop_pages (id : String) (rest : List Collection) (last out : Collection)
    (reqs : List (String × Vars)) (fuel : Nat)
    (hrest : ∀ p ∈ rest, p.Products.PageInfo.HasNextPage = true ∧ p.Products.Edges ≠ [])
    (hlast : last.Products.PageInfo.HasNextPage = false)
    (hout : out.Products.Edges ≠ [])
    (hfuel : rest.length + 2 ≤ fuel) :
    CollectionServiceOp.Get_loop servePages id fuel ⟨pageAnswers (rest ++ [last]), reqs⟩ out true =
      some (⟨[], reqs ++ (lastCursor out :: rest.map lastCursor).map (pageRequest id)⟩,
        .returned (some (withEdges out
          (out.Products.Edges ++ (rest ++ [last]).flatMap (fun p => p.Products.Edges))), none)) := by
  induction rest generalizing out reqs fuel with
  | nil =>
    obtain ⟨fuel, rfl⟩ : ∃ f, fuel = f + 2 := ⟨fuel - 2, by omega⟩
    have hc : (out.Products.Edges.getLast hout).Cursor = lastCursor out := by
      simp [lastCursor, List.getLast?_eq_getLast _ hout]
    simp [CollectionServiceOp.Get_loop, hout, pageAnswers, getPage_served, hlast, hc, withEdges]
  | cons p rest ih =>
    obtain ⟨fuel, rfl⟩ : ∃ f, fuel = f + 1 := ⟨fuel - 1, by simp at hfuel; omega⟩
    have hc : (out.Products.Edges.getLast hout).Cursor = lastCursor out := by
      simp [lastCursor, List.getLast?_eq_getLast _ hout]
    have hp := hrest p (List.mem_cons_self _ _)
    have hrest2 : ∀ q ∈ rest, q.Products.PageInfo.HasNextPage = true ∧ q.Products.Edges ≠ [] :=
      fun q hq => hrest q (List.mem_cons_of_mem _ hq)
    have hout2 : (withEdges out (out.Products.Edges ++ p.Products.Edges)).Products.Edges ≠ [] := by
      simp [withEdges, hout]
    have := ih (withEdges out (out.Products.Edges ++ p.Products.Edges))
      (reqs ++ [pageRequest id (lastCursor out)]) fuel hrest2 hout2
      (by simp at hfuel; omega)
    rw [lastCursor_append out p hp.2] at this
    simp only [CollectionServiceOp.Get_loop, hout, ne_eq, not_false_eq_true, and_self,
      ↓reduceDIte, pageAnswers, List.cons_append, List.map_cons, getPage_served, hc, hp.1]
    simp only [pageAnswers, withEdges] at this
    simp only [withEdges]
    rw [this]
    simp [withEdges, List.flatMap_cons]

/-- C7: against a remote side serving pages p0..pn, of which p0..p(n-1)
have a next page and at least one product edge and pn has no next page,
`Collection.Get` terminates (any fuel above n suffices), issues exactly n+1
page requests, the first with no cursor and each later one with the cursor
of the last edge of the page before, and returns the collection of p0 with
its product edges replaced by the edges of p0..pn in order. -/
theorem Get_aggregates_pages (id : String) (init : List Collection) (last : Collection)
    (fuel : Nat)
    (hinit : ∀ p ∈ init, p.Products.PageInfo.HasNextPage = true ∧ p.Products.Edges ≠ [])
    (hlast : last.Products.PageInfo.HasNextPage = false)
    (hfuel : init.length + 1 ≤ fuel) :
    CollectionServiceOp.Get servePages fuel ⟨pageAnswers (init ++ [last]), []⟩ id =
      some (⟨[], ("" :: init.map lastCursor).map (pageRequest id)⟩,
        .returned (some (withEdges (init.head?.getD last)
          ((init ++ [last]).flatMap (fun p => p.Products.Edges))), none)) ∧
    (("" :: init.map lastCursor).map (pageRequest id)).length = init.length + 1 ∧
    (pageRequest id "").2.has "cursor" = false ∧
    ∀ c : String, c ≠ "" → (pageRequest id c).2.get "cursor" = some (.str c) := by
  refine ⟨?_, by simp, by simp [pageRequest, CollectionServiceOp.getPage_vars, Vars.has,
    Vars.get, List.lookup], ?_⟩
  · cases init with
    | nil =>
      obtain ⟨fuel, rfl⟩ : ∃ f, fuel = f + 1 := ⟨fuel - 1, by simp at hfuel; omega⟩
      simp [CollectionServiceOp.Get, pageAnswers, getPage_served, CollectionServiceOp.Get_loop,
        hlast, withEdges]
    | cons p0 rest =>
      have hp := hinit p0 (List.mem_cons_self _ _)
      have hrest : ∀ q ∈ rest, q.Products.PageInfo.HasNextPage = true ∧ q.Products.Edges ≠ [] :=
        fun q hq => hinit q (List.mem_cons_of_mem _ hq)
      have := Get_loop_pages id rest last p0 ([] ++ [pageRequest id ""]) fuel hrest hlast hp.2
        (by simp at hfuel; omega)
      simp only [pageAnswers] at this
      simp only [CollectionServiceOp.Get, pageAnswers, List.cons_append, List.map_cons,
        getPage_served, hp.1]
      rw [this]
      simp [withEdges, List.flatMap_cons]
  · intro c hc
    simp [pageRequest, CollectionServiceOp.getPage_vars, hc, Vars.set, Vars.get, List.lookup]

/-- C7 (witness): two pages, the first of two edges with a next page; the
second request carries the cursor `c2` of the last edge of the first page. -/
theorem Get_aggregates_pages_witness :
    CollectionServiceOp.Get servePages 2 ⟨pageAnswers ([examplePage0] ++ [examplePage1]), []⟩
        "gid://shopify/Collection/1" =
      some (⟨[], [(CollectionServiceOp.getPage_query,
            [("id", .str "gid://shopify/Collection/1")]),
          (CollectionServiceOp.getPage_query,
            [("cursor", .str "c2"), ("id", .str "gid://shopify/Collection/1")])]⟩,
        .returned (some ⟨"gid://shopify/Collection/1", "summer", "Summer",
          ⟨[⟨"p1", "c1"⟩, ⟨"p2", "c2"⟩, ⟨"p3", "c3"⟩], ⟨true⟩⟩⟩, none)) :=
  (Get_aggregates_pages "gid://shopify/Collection/1" [examplePage0] examplePage1 2
    (by simp [examplePage0]) rfl (by simp)).1

/-! ## Cursor round trip -/

/-- The page computed from a successful response whose edges all carry a
node. -/
theorem ListAfterCursor_result_nodes (out : OrdersOut) (nodes : List Order)
    (hne : out.Edges ≠ [])
    (hnodes : out.Edges.map (fun e => e.OrderQueryResult) = nodes.map some) :
    ListAfterCursor_result (.ok out) =
      .returned (some nodes, some (out.Edges.head hne).Cursor,
        some (out.Edges.getLast hne).Cursor, none) := by
  obtain ⟨edges, hnp⟩ := out
  cases edges with
  | nil => exact absurd rfl hne
  | cons e rest =>
    simp only [ListAfterCursor_result]
    rw [collectOrders_nodes (e :: rest) nodes [] hnodes]
    simp

/-- The nodes of the edges of a backing list are its orders. -/
theorem backingEdges_nodes (l : List (Order × String)) :
    (backingEdges l).map (fun e => e.OrderQueryResult) = (l.map Prod.fst).map some := by
  simp [backingEdges]

/-- In a backing list of pairwise distinct cursors, the edges after the
cursor of the item at index `i` are the edges of the items after index `i`. -/
theorem edgesAfter_backing (l : List (Order × String)) (i : Nat) (h : i < l.length)
    (hd : (l.map Prod.snd).Nodup) :
    edgesAfter l[i].2 (backingEdges l) = backingEdges (l.drop (i + 1)) := by
  induction l generalizing i with
  | nil => simp at h
  | cons x rest ih =>
    cases i with
    | zero => simp [backingEdges, edgesAfter]
    | succ j =>
      have hj : j < rest.length := by simpa using h
      simp only [List.map_cons, List.nodup_cons] at hd
      have hne : x.2 ≠ rest[j].2 := by
        intro heq
        apply hd.1
        rw [heq]
        exact List.mem_map_of_mem _ (List.getElem_mem _)
      have := ih j hj hd.2
      simp only [backingEdges] at this
      simp [backingEdges, edgesAfter, hne, this]

/-- The variables of a first forward page of `K` items. -/
theorem ListAfterCursor_vars_first (K : Nat) (hK : 1 ≤ K) :
    (ListAfterCursor_vars { First := K }).get "after" = none ∧
    (ListAfterCursor_vars { First := K }).get "first" = some (.int K) := by
  have : (K : Int) > 0 := by omega
  simp [ListAfterCursor_vars, this, Vars.set, Vars.get, List.lookup]

/-- The variables of a forward page of `K` items after a non-empty cursor. -/
theorem ListAfterCursor_vars_first_after (K : Nat) (hK : 1 ≤ K) (c : String) (hc : c ≠ "") :
    (ListAfterCursor_vars { First := K, After := c }).get "after" = some (.str c) ∧
    (ListAfterCursor_vars { First := K, After := c }).get "first" = some (.int K) := by
  have : (K : Int) > 0 := by omega
  simp [ListAfterCursor_vars, this, hc, Vars.set, Vars.get, List.lookup]

/-- The answer of the reference collaborator to a request for `K` items
from the start. -/
theorem referenceOrders_first (backing : List (Order × String)) (q : String) (vars : Vars)
    (K : Nat) (ha : vars.get "after" = none) (hf : vars.get "first" = some (.int K)) :
    ∃ more, referenceOrders backing q vars = .ok ⟨backingEdges (backing.take K), more⟩ := by
  simp [referenceOrders, ha, hf, backingEdges, List.map_take]

/-- The answer of the reference collaborator to a request for `K` items
after the cursor of the item at index `i`. -/
theorem referenceOrders_after (backing : List (Order × String)) (q : String) (vars : Vars)
    (K i : Nat) (h : i < backing.length) (hd : (backing.map Prod.snd).Nodup)
    (ha : vars.get "after" = some (.str backing[i].2))
    (hf : vars.get "first" = some (.int K)) :
    ∃ more, referenceOrders backing q vars =
      .ok ⟨backingEdges ((backing.drop (i + 1)).take K), more⟩ := by
  have := edgesAfter_backing backing i h hd
  simp [referenceOrders, ha, hf, this]
  simp [backingEdges, List.map_take]

/-- The page of `ListAfterCursor` for a response made of backing items. -/
theorem ListAfterCursor_result_backing (l : List (Order × String)) (more : Bool)
    (hne : l ≠ []) :
    ListAfterCursor_result (.ok ⟨backingEdges l, more⟩) =
      .returned (some (l.map Prod.fst), some (l.head hne).2, some (l.getLast hne).2, none) := by
  have hne2 : (⟨backingEdges l, more⟩ : OrdersOut).Edges ≠ [] := by
    simpa [backingEdges] using hne
  rw [ListAfterCursor_result_nodes ⟨backingEdges l, more⟩ (l.map Prod.fst) hne2
    (backingEdges_nodes l)]
  simp [backingEdges, List.head_map, List.getLast_map]

/-- C3 (as amended): for K ≥ 1 and a backing list of more than 2K orders
with pairwise distinct cursors, the cursor of the K-th order not being the
empty string, `ListAfterCursor` with First=K returns the first K orders, and
with First=K and After set to the returned lastCursor it returns the next K
orders; the two pages together are the first 2K orders of the list. -/
theorem cursor_round_trip (K : Nat) (backing : List (Order × String))
    (hK : 1 ≤ K) (hlen : 2 * K < backing.length)
    (hdistinct : (backing.map Prod.snd).Nodup)
    (hcursor : backing[K - 1]?.map Prod.snd ≠ some "") :
    ∃ firstCursor lastCursor firstCursor2 lastCursor2,
      OrderServiceOp.ListAfterCursor (referenceOrders backing) { First := K } =
        .returned (some ((backing.take K).map Prod.fst),
          some firstCursor, some lastCursor, none) ∧
      OrderServiceOp.ListAfterCursor (referenceOrders backing)
          { First := K, After := lastCursor } =
        .returned (some (((backing.drop K).take K).map Prod.fst),
          some firstCursor2, some lastCursor2, none) ∧
      (backing.take K).map Prod.fst ++ ((backing.drop K).take K).map Prod.fst =
        (backing.take (2 * K)).map Prod.fst := by
  have hi : K - 1 < backing.length := by omega
  have hc : backing[K - 1].2 ≠ "" := by
    intro h
    apply hcursor
    rw [List.getElem?_eq_getElem hi]
    simp [h]
  have hne1 : backing.take K ≠ [] := by
    intro h
    have := congrArg List.length h
    rw [List.length_take, List.length_nil] at this
    omega
  have hne2 : (backing.drop K).take K ≠ [] := by
    intro h
    have := congrArg List.length h
    rw [List.length_take, List.length_drop, List.length_nil] at this
    omega
  have hlast : ((backing.take K).getLast hne1).2 = backing[K - 1].2 := by
    rw [List.getLast_eq_getElem]
    simp [List.length_take, Nat.min_eq_left (by omega : K ≤ backing.length)]
  obtain ⟨hv1a, hv1f⟩ := ListAfterCursor_vars_first K hK
  obtain ⟨more1, h1⟩ := referenceOrders_first backing ListAfterCursor_query _ K hv1a hv1f
  obtain ⟨hv2a, hv2f⟩ := ListAfterCursor_vars_first_after K hK backing[K - 1].2 hc
  obtain ⟨more2, h2⟩ := referenceOrders_after backing ListAfterCursor_query _ K (K - 1) hi
    hdistinct hv2a hv2f
  have hK1 : K - 1 + 1 = K := by omega
  rw [hK1] at h2
  refine ⟨((backing.take K).head hne1).2, backing[K - 1].2,
    (((backing.drop K).take K).head hne2).2, (((backing.drop K).take K).getLast hne2).2,
    ?_, ?_, ?_⟩
  · unfold OrderServiceOp.ListAfterCursor
    rw [h1, ListAfterCursor_result_backing _ _ hne1, hlast]
  · unfold OrderServiceOp.ListAfterCursor
    rw [h2, ListAfterCursor_result_backing _ _ hne2]
  · rw [← List.map_append, two_mul, List.take_add]

/-- C3 (witness): three orders with cursors `a`, `b`, `c`, pages of one. -/
theorem cursor_round_trip_witness :
    ∃ firstCursor lastCursor firstCursor2 lastCursor2,
      OrderServiceOp.ListAfterCursor (referenceOrders exampleBacking)
          { First := ((1 : Nat) : Int) } =
        .returned (some ((exampleBacking.take 1).map Prod.fst),
          some firstCursor, some lastCursor, none) ∧
      OrderServiceOp.ListAfterCursor (referenceOrders exampleBacking)
          { First := ((1 : Nat) : Int), After := lastCursor } =
        .returned (some (((exampleBacking.drop 1).take 1).map Prod.fst),
          some firstCursor2, some lastCursor2, none) ∧
      (exampleBacking.take 1).map Prod.fst ++ ((exampleBacking.drop 1).take 1).map Prod.fst =
        (exampleBacking.take (2 * 1)).map Prod.fst :=
  cursor_round_trip 1 exampleBacking (by decide) (by decide) (by decide) (by decide)

/-- C3 (counterexample): K = 1 and three orders with the distinct cursors
(empty string), `b`, `c`. The first page is the first order and its
lastCursor is the empty string; sent back as `After` it is left out of the
request, and the second page is the first order again, not the second. -/
theorem cursor_round_trip_fails_on_empty_cursor :
    1 ≤ 1 ∧ 2 * 1 < emptyCursorBacking.length ∧
    (emptyCursorBacking.map Prod.snd).Nodup ∧
    OrderServiceOp.ListAfterCursor (referenceOrders emptyCursorBacking) { First := 1 } =
      .returned (some [⟨"1", "#1001"⟩], some "", some "", none) ∧
    (ListAfterCursor_vars { First := 1, After := "" }).has "after" = false ∧
    OrderServiceOp.ListAfterCursor (referenceOrders emptyCursorBacking)
        { First := 1, After := "" } =
      .returned (some [⟨"1", "#1001"⟩], some "", some "", none) ∧
    ([⟨"1", "#1001"⟩] ++ [⟨"1", "#1001"⟩] : List Order) ≠
      (emptyCursorBacking.take (2 * 1)).map Prod.fst := by
  refine ⟨by decide, by decide, by decide, by decide, by decide, by decide, by decide⟩

end Shopify
